import Mathlib

/-!
# Linklet: visit pipeline, client-IP resolution, geolocation lookup, root handler

A shallow embedding of `visits.go`, `geoip.go`, `store.go` and the root handler
of `main.go`.

Conventions of the embedding:

* Go strings are Lean `String`s (sequences of characters).
* A run-time panic (index out of range, send on a closed channel, close of a
  closed channel) is the result `none` of an `Option`-valued function.
* The packages the program imports (`net/http`, `encoding/json`, `strings`,
  `unicode`, `github.com/mileusna/useragent`) are not part of the repository.
  `strings.Split`, `strings.TrimSpace`, `strings.HasPrefix` and
  `unicode.IsSpace` are written out; everything that talks to the outside world
  (the user-agent parser, the HTTP client, the JSON codec, the clock, the file)
  is a parameter collected in `Env`, so that every theorem holds for every
  behaviour of those collaborators.
* Logging, file writes, file close and HTTP requests are recorded, in program
  order, in a trace of `Effect`s.
-/

namespace Linklet

/-! ## Strings (Go standard library) -/

/-- Go `unicode.IsSpace`: the Latin-1 white space characters and the other code
points with the Unicode White_Space property. -/
def IsSpace (c : Char) : Bool :=
  let n := c.toNat
  if n ≤ 0xFF then
    n = 0x09 || n = 0x0A || n = 0x0B || n = 0x0C || n = 0x0D || n = 0x20 ||
      n = 0x85 || n = 0xA0
  else
    n = 0x1680 || (0x2000 ≤ n && n ≤ 0x200A) || n = 0x2028 || n = 0x2029 ||
      n = 0x202F || n = 0x205F || n = 0x3000

/-- Go `strings.TrimSpace` on a character list: leading and trailing white
space removed. -/
def trimSpaceChars (cs : List Char) : List Char :=
  ((cs.dropWhile IsSpace).reverse.dropWhile IsSpace).reverse

/-- Go `strings.TrimSpace`. -/
def TrimSpace (s : String) : String :=
  ⟨trimSpaceChars s.data⟩

/-- Worker of `strings.Split` for a non-empty separator: `skip` counts the
characters of a separator occurrence still to be passed over, `cur` is the
current piece, reversed. -/
def splitGo (sep : List Char) : List Char → Nat → List Char → List (List Char)
  | [], _, cur => [cur.reverse]
  | _ :: cs, skip + 1, cur => splitGo sep cs skip cur
  | c :: cs, 0, cur =>
    if sep.isPrefixOf (c :: cs) then
      cur.reverse :: splitGo sep cs (sep.length - 1) []
    else
      splitGo sep cs 0 (c :: cur)

/-- Go `strings.Split`: the pieces of `s` between the occurrences of `sep`; with
an empty separator the string is exploded into its characters. -/
def Split (s sep : String) : List String :=
  if sep.data = [] then s.data.map (fun c => ⟨[c]⟩)
  else (splitGo sep.data s.data 0 []).map (fun p => ⟨p⟩)

/-- Go `strings.HasPrefix`. -/
def HasPrefix (s pre : String) : Bool :=
  pre.data.isPrefixOf s.data

/-! ## HTTP requests (the part of `net/http` the program reads) -/

/-- Go `http.Header`: a map from header names to the list of their values. The
keys are compared up to Go's canonical form; the model indexes the map by the
name under which the program asks for the header. -/
abbrev Header := List (String × List String)

/-- Go `Header.Get`: the first value of the header, `""` when the header is
absent or has no value. -/
def Header.Get (h : Header) (key : String) : String :=
  match h.lookup key with
  | some (v :: _) => v
  | _ => ""

/-- The fields of `*http.Request` the program reads. -/
structure Request where
  Method : String
  Path : String
  RawQuery : String
  Header : Header
  RemoteAddr : String
deriving DecidableEq, Repr

/-- Go `Request.UserAgent`. -/
def Request.UserAgent (r : Request) : String :=
  r.Header.Get "User-Agent"

/-- Go `Request.Referer`. -/
def Request.Referer (r : Request) : String :=
  r.Header.Get "Referer"

/-! ## visits.go: client IP and device class -/

/-- `getRealIP` of visits.go. `parts[0]` is an index expression, so the result
is `none` should `strings.Split` return no piece. -/
def getRealIP (r : Request) : Option String :=
  let xff := r.Header.Get "X-Forwarded-For"
  if xff ≠ "" then
    let parts := Split xff ","
    match parts[0]? with
    | some p => some (TrimSpace p)
    | none => none
  else
    let xrip := r.Header.Get "X-Real-IP"
    if xrip ≠ "" then some xrip
    else some r.RemoteAddr

/-- The fields of `useragent.UserAgent` the program reads. -/
structure UserAgent where
  Name : String
  Version : String
  OS : String
  OSVersion : String
  Mobile : Bool
  Tablet : Bool
  Desktop : Bool
  Bot : Bool
deriving DecidableEq, Repr

/-- `getDeviceType` of visits.go. -/
def getDeviceType (ua : UserAgent) : String :=
  if ua.Tablet then "tablet"
  else if ua.Mobile then "mobile"
  else if ua.Desktop then "desktop"
  else if ua.Bot then "bot"
  else "unknown"

/-! ## geoip.go -/

/-- `GeoIPService` of geoip.go; its `client` is the `Do` of the environment. -/
structure GeoIPService where
  accountID : String
  licenseKey : String
deriving DecidableEq, Repr

/-- An outbound request as `http.NewRequest` and `SetBasicAuth` shape it. -/
structure HTTPRequest where
  method : String
  url : String
  basicAuth : Option (String × String)
deriving DecidableEq, Repr

/-- The part of `*http.Response` that `Lookup` reads. -/
structure HTTPResponse where
  StatusCode : Nat
  Body : String
deriving DecidableEq, Repr

/-- The `City` member of `maxMindResponse`; `Names` is a Go map. -/
structure maxMindCity where
  Names : List (String × String)
deriving DecidableEq, Repr

/-- The `Country` member of `maxMindResponse`. -/
structure maxMindCountry where
  IsoCode : String
deriving DecidableEq, Repr

/-- `maxMindResponse` of geoip.go. -/
structure maxMindResponse where
  City : maxMindCity
  Country : maxMindCountry
deriving DecidableEq, Repr

/-- Go map index expression `m[key]` on a `map[string]string`: the zero value
`""` for a missing key (and for a nil map, which is the empty list here). -/
def mapIndex (m : List (String × String)) (key : String) : String :=
  match m.lookup key with
  | some v => v
  | none => ""

/-! ## The visit record and the outside world -/

/-- `Visit` of visits.go; `Time` is the instant read from the clock. -/
structure Visit where
  Time : Nat
  Slug : String
  IP : String
  UserAgent : String
  Referer : String
  QueryParams : String
  Language : String
  DeviceType : String
  Browser : String
  BrowserVer : String
  OS : String
  OSVer : String
  IsBot : Bool
  Country : String
  City : String
deriving DecidableEq, Repr

/-- Levels of the `Logger` of logger.go. -/
inductive Level
  | info
  | warn
  | error
  | debug
deriving DecidableEq, Repr

/-- What the program does to the outside world, in program order. -/
inductive Effect
  /-- A call `logger.<Level>(msg, args...)`. -/
  | log (level : Level) (msg : String) (args : List String)
  /-- A call `client.Do(req)`. -/
  | httpDo (req : HTTPRequest)
  /-- A line that `encoder.Encode` appended to the visits file. -/
  | write (line : String)
  /-- The call `file.Close()`. -/
  | fileClose
deriving DecidableEq, Repr

/-- The collaborators outside the repository, as seen during one call. -/
structure Env where
  /-- Package function `useragent.Parse`. -/
  Parse : String → UserAgent
  /-- Clock reading `time.Now()`. -/
  Now : Nat
  /-- Constructor `http.NewRequest(method, url, nil)`; `none` is its error. -/
  NewRequest : String → String → Option HTTPRequest
  /-- Method `client.Do`; `none` is its error. -/
  Do : HTTPRequest → Option HTTPResponse
  /-- Decoding of a response body into `maxMindResponse`; `none` is its error. -/
  Decode : String → Option maxMindResponse
  /-- The JSON line `encoder.Encode` writes for a visit. -/
  Marshal : Visit → String
  /-- The error, if any, of the `n`-th call of `encoder.Encode`. -/
  EncodeErr : Nat → Option String
  /-- The error, if any, of `file.Close()`. -/
  CloseErr : Option String

/-- `GeoIPService.Lookup` of geoip.go: the pair (country, city) and the effects
of the call. -/
def GeoIPService.Lookup (env : Env) (s : GeoIPService) (ipStr : String) :
    (String × String) × List Effect :=
  if ipStr = "" then (("", ""), [])
  else
    let url := "https://geolite.info/geoip/v2.1/city/" ++ ipStr
    match env.NewRequest "GET" url with
    | none => (("", ""), [])
    | some req0 =>
      let req := { req0 with basicAuth := some (s.accountID, s.licenseKey) }
      match env.Do req with
      | none => (("", ""), [Effect.httpDo req])
      | some resp =>
        if resp.StatusCode ≠ 200 then (("", ""), [Effect.httpDo req])
        else
          match env.Decode resp.Body with
          | none => (("", ""), [Effect.httpDo req])
          | some result =>
            ((result.Country.IsoCode, mapIndex result.City.Names "en"),
              [Effect.httpDo req])

/-! ## visits.go: the tracker -/

/-- Capacity of the channel made by `NewVisitTracker`: `make(chan Visit, 100)`. -/
def chanCap : Nat := 100

/-- `VisitTracker` of visits.go together with the state of the things it owns:
the buffered content of `ch` (oldest first), whether `ch` has been closed, the
lines of the visits file, whether the file has been closed, whether the worker
goroutine has returned (`wg` back to zero), how many times the worker's encoder
has been called, and the trace of effects so far. -/
structure VisitTracker where
  geoip : Option GeoIPService
  ch : List Visit
  chClosed : Bool
  file : List String
  fileClosed : Bool
  workerExited : Bool
  encoded : Nat
  trace : List Effect
deriving DecidableEq, Repr

/-- `NewVisitTracker` of visits.go; `opened` is the outcome of `os.OpenFile` in
append mode: the lines already in the file, or the error. -/
def NewVisitTracker (opened : Except String (List String)) (geoip : Option GeoIPService) :
    Except String VisitTracker :=
  match opened with
  | .error err => .error err
  | .ok lines =>
    .ok { geoip := geoip, ch := [], chClosed := false, file := lines, fileClosed := false,
          workerExited := false, encoded := 0, trace := [] }

/-- The first part of `VisitTracker.Record` (visits.go lines 82-107): the `Visit`
literal it builds and the effects of building it. -/
def VisitTracker.newVisit (env : Env) (t : VisitTracker) (r : Request) (slug : String) :
    Option (Visit × List Effect) :=
  let uaStr := r.UserAgent
  let ua := env.Parse uaStr
  match getRealIP r with
  | none => none
  | some ip =>
    let geo : (String × String) × List Effect :=
      match t.geoip with
      | some g => g.Lookup env ip
      | none => (("", ""), [])
    some ({ Time := env.Now, Slug := slug, IP := ip, UserAgent := uaStr,
            Referer := r.Referer, QueryParams := r.RawQuery,
            Language := r.Header.Get "Accept-Language",
            DeviceType := getDeviceType ua, Browser := ua.Name, BrowserVer := ua.Version,
            OS := ua.OS, OSVer := ua.OSVersion, IsBot := ua.Bot,
            Country := geo.1.1, City := geo.1.2 }, geo.2)

/-- The warning `Record` logs when it drops a visit. -/
def dropWarning (slug : String) : Effect :=
  Effect.log Level.warn "Visit queue full, dropping visit" ["slug", slug]

/-- `VisitTracker.Record` of visits.go. The `select` sends when the buffer has
room and takes the `default` branch otherwise; a send on a closed channel
panics. -/
def VisitTracker.Record (env : Env) (t : VisitTracker) (r : Request) (slug : String) :
    Option VisitTracker :=
  match t.newVisit env r slug with
  | none => none
  | some (v, fx) =>
    if t.chClosed then none
    else if t.ch.length < chanCap then
      some { t with ch := t.ch ++ [v], trace := t.trace ++ fx }
    else
      some { t with trace := t.trace ++ fx ++ [dropWarning slug] }

/-- The error the worker logs when `Encode` fails. -/
def writeError (err : String) : Effect :=
  Effect.log Level.error "Failed to write visit" ["error", err]

/-- The body of the worker's `range` loop for the received visit `v`. -/
def VisitTracker.encodeOne (env : Env) (t : VisitTracker) (v : Visit) : VisitTracker :=
  match env.EncodeErr t.encoded with
  | none =>
    { t with file := t.file ++ [env.Marshal v], encoded := t.encoded + 1,
             trace := t.trace ++ [Effect.write (env.Marshal v)] }
  | some err =>
    { t with encoded := t.encoded + 1, trace := t.trace ++ [writeError err] }

/-- One move of the worker goroutine (`for v := range t.ch`): receive the oldest
buffered visit and run the loop body; on an empty closed channel leave the loop
and return (`wg.Done`). `none`: the worker cannot move, because it has returned
or because it waits on an empty open channel. -/
def VisitTracker.workerStep (env : Env) (t : VisitTracker) : Option VisitTracker :=
  if t.workerExited then none
  else
    match t.ch with
    | v :: rest => some (VisitTracker.encodeOne env { t with ch := rest } v)
    | [] => if t.chClosed then some { t with workerExited := true } else none

/-- At most `fuel` moves of the worker. -/
def VisitTracker.workerRun (env : Env) : Nat → VisitTracker → VisitTracker
  | 0, t => t
  | fuel + 1, t =>
    match VisitTracker.workerStep env t with
    | none => t
    | some t1 => VisitTracker.workerRun env fuel t1

/-- The worker of visits.go run for as long as it can move. -/
def VisitTracker.worker (env : Env) (t : VisitTracker) : VisitTracker :=
  VisitTracker.workerRun env (t.ch.length + 1) t

/-- `VisitTracker.Close` of visits.go: `close(t.ch)` (a panic on a closed
channel), `t.wg.Wait()` (the worker runs until it returns), `t.file.Close()`,
whose error is the result. -/
def VisitTracker.Close (env : Env) (t : VisitTracker) :
    Option (VisitTracker × Option String) :=
  if t.chClosed then none
  else
    let t1 := VisitTracker.worker env { t with chClosed := true }
    some ({ t1 with fileClosed := true, trace := t1.trace ++ [Effect.fileClose] },
      env.CloseErr)

/-! ## store.go and the root handler of main.go -/

/-- `URLStore` of store.go: the map from slugs to URLs. -/
structure URLStore where
  urls : List (String × String)
deriving DecidableEq, Repr

/-- `URLStore.Get` of store.go; the pair `(url, ok)` is an `Option`. -/
def URLStore.Get (s : URLStore) (slug : String) : Option String :=
  s.urls.lookup slug

/-- What the root handler sends back. -/
inductive Reply
  /-- Call `http.Error(w, msg, code)`. -/
  | error (msg : String) (code : Nat)
  /-- Call `http.Redirect(w, r, url, code)`. -/
  | redirect (url : String) (code : Nat)
  /-- Calls `w.WriteHeader(code)` and `w.Write(body)`. -/
  | page (code : Nat) (body : String)
  /-- Call `http.NotFound(w, r)`. -/
  | notFound
deriving DecidableEq, Repr

/-- The status code of a reply. -/
def Reply.status : Reply → Nat
  | .error _ code => code
  | .redirect _ code => code
  | .page code _ => code
  | .notFound => 404

/-- The slice expression `r.URL.Path[1:]`: the path without its first
character, a panic on the empty path. -/
def pathSlug (path : String) : Option String :=
  match path.data with
  | [] => none
  | _ :: cs => some ⟨cs⟩

/-- The handler registered on "/" in main.go. The result is the reply and the
tracker afterwards (its trace holds the log calls); `none` is a panic. -/
def rootHandler (env : Env) (store : URLStore) (t : VisitTracker) (r : Request) :
    Option (Reply × VisitTracker) :=
  if r.Method ≠ "GET" then
    some (Reply.error "Method not allowed" 405, t)
  else
    match pathSlug r.Path with
    | none => none
    | some slug =>
      match store.Get slug with
      | some url =>
        if !HasPrefix url "http://" && !HasPrefix url "https://" then
          some (Reply.error "Invalid redirect URL" 400,
            { t with trace := t.trace ++
                [Effect.log Level.warn "Blocked unsafe redirect scheme" ["slug", slug, "url", url]] })
        else
          let t1 := { t with trace := t.trace ++
                [Effect.log Level.info "Redirecting" ["slug", slug, "url", url]] }
          match VisitTracker.Record env t1 r slug with
          | none => none
          | some t2 => some (Reply.redirect url 302, t2)
      | none =>
        if slug = "" then
          some (Reply.page 200 "<!DOCTYPE html><html><head></head><body></body></html>", t)
        else
          some (Reply.notFound,
            { t with trace := t.trace ++ [Effect.log Level.debug "Slug not found" ["slug", slug]] })

/-! ## Definitions used to state the properties -/

/-- The first comma-separated entry of a header value: the text before the
first comma (the whole value when it has no comma). -/
def firstEntry (s : String) : String :=
  ⟨s.data.takeWhile (fun c => c ≠ ',')⟩

/-- Whether a request carries the header `key`, with whatever value. -/
def Header.Present (h : Header) (key : String) : Bool :=
  (h.lookup key).isSome

/-- Whether an effect is a call on the HTTP client. -/
def Effect.isHttp : Effect → Bool
  | .httpDo _ => true
  | _ => false

/-- Whether an effect is a log call of the given level. -/
def Effect.isLog (l : Level) : Effect → Bool
  | .log l2 _ _ => l2 = l
  | _ => false

/-- The effect of the worker's `n`-th call of `Encode`, made for the visit `v`:
the line written, or the error logged. -/
def encodeEffect (env : Env) (n : Nat) (v : Visit) : Effect :=
  match env.EncodeErr n with
  | none => Effect.write (env.Marshal v)
  | some err => writeError err

/-- The line, if any, that the worker's `n`-th call of `Encode`, made for the
visit `v`, appends to the file. -/
def encodeLine (env : Env) (n : Nat) (v : Visit) : Option String :=
  match env.EncodeErr n with
  | none => some (env.Marshal v)
  | some _ => none

/-- One call of `Record`: the outside world at that moment and the arguments. -/
structure RecordCall where
  env : Env
  r : Request
  slug : String

/-- A sequence of `Record` calls with no move of the worker in between. -/
def VisitTracker.recordAll : VisitTracker → List RecordCall → Option VisitTracker
  | t, [] => some t
  | t, c :: cs =>
    match VisitTracker.Record c.env t c.r c.slug with
    | none => none
    | some t1 => VisitTracker.recordAll t1 cs

/-- The visits that a sequence of `Record` calls builds, in call order. -/
def VisitTracker.visitsOf (t : VisitTracker) (calls : List RecordCall) : List Visit :=
  calls.filterMap (fun c => (VisitTracker.newVisit c.env t c.r c.slug).map Prod.fst)

/-- Whether every enrichment field of a visit is empty. -/
def Visit.enrichmentEmpty (v : Visit) : Bool :=
  v.DeviceType = "" && v.Browser = "" && v.BrowserVer = "" && v.OS = "" && v.OSVer = "" &&
    v.Country = "" && v.City = "" && v.IsBot = false

/-- The tracker states the program can reach: the one `NewVisitTracker` makes,
then any number of `Record` calls, moves of the worker, and a `Close`. -/
inductive Reachable : VisitTracker → Prop
  | init (opened : Except String (List String)) (geoip : Option GeoIPService)
      (t : VisitTracker) : NewVisitTracker opened geoip = .ok t → Reachable t
  | record (env : Env) (r : Request) (slug : String) (t t2 : VisitTracker) :
      Reachable t → VisitTracker.Record env t r slug = some t2 → Reachable t2
  | step (env : Env) (t t2 : VisitTracker) :
      Reachable t → VisitTracker.workerStep env t = some t2 → Reachable t2
  | close (env : Env) (t t2 : VisitTracker) (err : Option String) :
      Reachable t → VisitTracker.Close env t = some (t2, err) → Reachable t2

/-! ## Sample data -/

/-- A user agent that the parser flags as a bot and as nothing else. -/
def crawler : UserAgent :=
  { Name := "Googlebot", Version := "2.1", OS := "", OSVersion := "",
    Mobile := false, Tablet := false, Desktop := false, Bot := true }

/-- An outside world in which the parser sees a crawler, the geolocation service
answers 200 with Barcelona, ES, and the second call of `Encode` fails. -/
def sampleEnv : Env :=
  { Parse := fun _ => crawler
    Now := 1700000000
    NewRequest := fun m u => some { method := m, url := u, basicAuth := none }
    Do := fun _ => some { StatusCode := 200, Body := "body" }
    Decode := fun _ =>
      some { City := { Names := [("de", "Barcelona"), ("en", "Barcelona")] },
             Country := { IsoCode := "ES" } }
    Marshal := fun v => v.Slug ++ " " ++ v.IP
    EncodeErr := fun n => if n = 1 then some "disk full" else none
    CloseErr := some "close failed" }

/-- The outside world of `sampleEnv` with an encoder that never fails. -/
def quietEnv : Env :=
  { sampleEnv with EncodeErr := fun _ => none }

/-- A GET request for the slug "promo" that came through a proxy. -/
def sampleRequest : Request :=
  { Method := "GET", Path := "/promo", RawQuery := "utm=1",
    Header := [("X-Forwarded-For", ["1.2.3.4, 5.6.7.8"]), ("User-Agent", ["Googlebot/2.1"])],
    RemoteAddr := "203.0.113.7:51234" }

/-- The geolocation service of the sample data. -/
def sampleGeoIP : GeoIPService :=
  { accountID := "42", licenseKey := "key" }

/-- A freshly made tracker with a geolocation service and an empty file. -/
def sampleTracker : VisitTracker :=
  { geoip := some sampleGeoIP, ch := [], chClosed := false, file := [], fileClosed := false,
    workerExited := false, encoded := 0, trace := [] }

/-- A visit as it sits in the queue. -/
def sampleVisit : Visit :=
  { Time := 1699999999, Slug := "old", IP := "198.51.100.9", UserAgent := "curl/8.0",
    Referer := "", QueryParams := "", Language := "en", DeviceType := "unknown",
    Browser := "curl", BrowserVer := "8.0", OS := "", OSVer := "", IsBot := false,
    Country := "", City := "" }

/-- A tracker whose channel buffer is full. -/
def fullTracker : VisitTracker :=
  { sampleTracker with ch := List.replicate 100 sampleVisit }

/-- A tracker with two visits waiting in the channel. -/
def busyTracker : VisitTracker :=
  { sampleTracker with ch := [sampleVisit, { sampleVisit with Slug := "new" }],
                       file := ["earlier line"] }

/-- A slug store with one safe and one unsafe target. -/
def sampleStore : URLStore :=
  { urls := [("promo", "https://example.com/sale"), ("evil", "javascript:alert(1)")] }

/-- The tracker as the handler hands it to `Record`: the "Redirecting" line
has been logged. -/
def afterRedirectLog (t : VisitTracker) (slug url : String) : VisitTracker :=
  { t with trace := t.trace ++ [Effect.log Level.info "Redirecting" ["slug", slug, "url", url]] }

/-- A request that carries an X-Real-IP header with an empty value and no
X-Forwarded-For header. -/
def emptyRealIPRequest : Request :=
  { Method := "GET", Path := "/promo", RawQuery := "",
    Header := [("X-Real-IP", [""])], RemoteAddr := "203.0.113.7:51234" }

/-- A user agent that the parser flags both as a bot and as mobile (a crawler
that presents itself as a smartphone browser). -/
def mobileCrawler : UserAgent :=
  { Name := "Googlebot", Version := "2.1", OS := "Android", OSVersion := "6.0.1",
    Mobile := true, Tablet := false, Desktop := false, Bot := true }

/-! ## Client IP (C5) -/

theorem splitGo_comma_head (s cur : List Char) :
    (splitGo [','] s 0 cur)[0]? = some (cur.reverse ++ s.takeWhile (fun c => c ≠ ',')) := by
  induction s generalizing cur with
  | nil => simp [splitGo]
  | cons c cs ih =>
    by_cases hc : c = ','
    · subst hc
      simp [splitGo, List.isPrefixOf]
    · have hc2 : (',' == c) = false := by
        simp only [beq_eq_false_iff_ne, ne_eq]
        exact fun h => hc h.symm
      simp [splitGo, List.isPrefixOf, hc2, ih, hc]

theorem Split_comma_first (s : String) : (Split s ",")[0]? = some (firstEntry s) := by
  have h := splitGo_comma_head s.data []
  have hsep : (",".data = []) = False := by decide
  simp only [Split, hsep, if_false, List.getElem?_map, firstEntry]
  rw [h]
  simp

theorem getRealIP_forwarded (q : Request) (hq : q.Header.Get "X-Forwarded-For" ≠ "") :
    getRealIP q = some (TrimSpace (firstEntry (q.Header.Get "X-Forwarded-For"))) := by
  simp only [getRealIP, hq, ne_eq, not_false_eq_true, if_true, Split_comma_first]

theorem getRealIP_total (r : Request) : ∃ ip, getRealIP r = some ip := by
  by_cases hx : r.Header.Get "X-Forwarded-For" = ""
  · by_cases hr : r.Header.Get "X-Real-IP" = ""
    · exact ⟨r.RemoteAddr, by simp [getRealIP, hx, hr]⟩
    · exact ⟨r.Header.Get "X-Real-IP", by simp [getRealIP, hx, hr]⟩
  · exact ⟨_, getRealIP_forwarded r hx⟩

/-- C5, as stated, fails: the X-Real-IP header is present (with an empty value)
and X-Forwarded-For is absent, yet `getRealIP` does not return the X-Real-IP
value but the transport remote address. -/
theorem getRealIP_present_empty_real_ip :
    Header.Present emptyRealIPRequest.Header "X-Forwarded-For" = false ∧
    Header.Present emptyRealIPRequest.Header "X-Real-IP" = true ∧
    getRealIP emptyRealIPRequest ≠ some (emptyRealIPRequest.Header.Get "X-Real-IP") ∧
    getRealIP emptyRealIPRequest = some "203.0.113.7:51234" := by
  decide

/-- C5 (amended): `getRealIP` never panics and returns (1) the first
comma-separated entry of X-Forwarded-For, trimmed, when that header's value is
non-empty; (2) otherwise the X-Real-IP value when that value is non-empty;
(3) otherwise the remote address. In particular "1.2.3.4, 5.6.7.8" resolves to
"1.2.3.4" whatever X-Real-IP and the remote address are, X-Real-IP "9.9.9.9"
alone resolves to "9.9.9.9", and with a non-empty X-Forwarded-For the result
depends on nothing else. -/
theorem getRealIP_precedence (r : Request) :
    (r.Header.Get "X-Forwarded-For" ≠ "" →
      getRealIP r = some (TrimSpace (firstEntry (r.Header.Get "X-Forwarded-For")))) ∧
    (r.Header.Get "X-Forwarded-For" = "" → r.Header.Get "X-Real-IP" ≠ "" →
      getRealIP r = some (r.Header.Get "X-Real-IP")) ∧
    (r.Header.Get "X-Forwarded-For" = "" → r.Header.Get "X-Real-IP" = "" →
      getRealIP r = some r.RemoteAddr) ∧
    (r.Header.Get "X-Forwarded-For" = "1.2.3.4, 5.6.7.8" → getRealIP r = some "1.2.3.4") ∧
    (r.Header.Get "X-Forwarded-For" = "" → r.Header.Get "X-Real-IP" = "9.9.9.9" →
      getRealIP r = some "9.9.9.9") ∧
    (∀ r2 : Request, r.Header.Get "X-Forwarded-For" ≠ "" →
      r2.Header.Get "X-Forwarded-For" = r.Header.Get "X-Forwarded-For" →
      getRealIP r2 = getRealIP r) := by
  have key := getRealIP_forwarded
  refine ⟨key r, ?_, ?_, ?_, ?_, ?_⟩
  · intro h1 h2
    simp [getRealIP, h1, h2]
  · intro h1 h2
    simp [getRealIP, h1, h2]
  · intro h
    have hne : r.Header.Get "X-Forwarded-For" ≠ "" := by rw [h]; decide
    rw [key r hne, h]
    decide
  · intro h1 h2
    have hne : r.Header.Get "X-Real-IP" ≠ "" := by rw [h2]; decide
    simp [getRealIP, h1, h2]
  · intro r2 h1 h2
    rw [key r h1, key r2 (by rw [h2]; exact h1), h2]

/-- The precedence at the request of the specification's example: both headers
set, X-Forwarded-For wins and its first entry is trimmed. -/
theorem getRealIP_precedence_witness :
    getRealIP { Method := "GET", Path := "/promo", RawQuery := "",
                Header := [("X-Forwarded-For", ["1.2.3.4, 5.6.7.8"]), ("X-Real-IP", ["9.9.9.9"])],
                RemoteAddr := "203.0.113.7:51234" } = some "1.2.3.4" :=
  (getRealIP_precedence _).2.2.2.1 (by decide)

/-! ## Device class (C6, C7) -/

/-- C6: `getDeviceType` follows the order tablet, mobile, desktop, bot, unknown
(first match wins) for every combination of the four flags; a user agent with
both Tablet and Mobile set is "tablet"; the result is one of the five strings. -/
theorem getDeviceType_order (ua : UserAgent) :
    (ua.Tablet = true → getDeviceType ua = "tablet") ∧
    (ua.Tablet = false → ua.Mobile = true → getDeviceType ua = "mobile") ∧
    (ua.Tablet = false → ua.Mobile = false → ua.Desktop = true →
      getDeviceType ua = "desktop") ∧
    (ua.Tablet = false → ua.Mobile = false → ua.Desktop = false → ua.Bot = true →
      getDeviceType ua = "bot") ∧
    (ua.Tablet = false → ua.Mobile = false → ua.Desktop = false → ua.Bot = false →
      getDeviceType ua = "unknown") ∧
    (ua.Tablet = true → ua.Mobile = true → getDeviceType ua = "tablet") ∧
    getDeviceType ua ∈ ["tablet", "mobile", "desktop", "bot", "unknown"] := by
  obtain ⟨n, v, o, ov, m, t, d, b⟩ := ua
  cases m <;> cases t <;> cases d <;> cases b <;> simp [getDeviceType]

/-- C7, as stated, fails: a user agent with Bot = true whose device class is
"mobile", not "bot". -/
theorem getDeviceType_bot_flag_not_bot_class :
    mobileCrawler.Bot = true ∧ getDeviceType mobileCrawler = "mobile" ∧
    getDeviceType mobileCrawler ≠ "bot" := by
  decide

/-- C7 (amended): the device class is "bot" exactly when Bot is set and none of
Tablet, Mobile, Desktop is; the visit that `Record` builds has `is_bot` equal to
the parser's Bot flag and `device_type` equal to the device class of the parsed
user agent, so a visit with `is_bot = true` whose user agent has none of the
three other flags has `device_type = "bot"`. -/
theorem bot_class_iff_only_bot (env : Env) (t : VisitTracker) (r : Request) (slug : String)
    (v : Visit) (fx : List Effect) (h : t.newVisit env r slug = some (v, fx)) :
    (getDeviceType (env.Parse r.UserAgent) = "bot" ↔
      ((env.Parse r.UserAgent).Bot = true ∧ (env.Parse r.UserAgent).Tablet = false ∧
        (env.Parse r.UserAgent).Mobile = false ∧ (env.Parse r.UserAgent).Desktop = false)) ∧
    v.IsBot = (env.Parse r.UserAgent).Bot ∧
    v.DeviceType = getDeviceType (env.Parse r.UserAgent) ∧
    (v.IsBot = true → (env.Parse r.UserAgent).Tablet = false →
      (env.Parse r.UserAgent).Mobile = false → (env.Parse r.UserAgent).Desktop = false →
      v.DeviceType = "bot") := by
  have hv : v.IsBot = (env.Parse r.UserAgent).Bot ∧
      v.DeviceType = getDeviceType (env.Parse r.UserAgent) := by
    unfold VisitTracker.newVisit at h
    cases hip : getRealIP r with
    | none => simp [hip] at h
    | some ip =>
      simp only [hip, Option.some.injEq, Prod.mk.injEq] at h
      obtain ⟨h1, _⟩ := h
      subst h1
      exact ⟨rfl, rfl⟩
  obtain ⟨hb, hd⟩ := hv
  rw [hb, hd]
  generalize env.Parse r.UserAgent = ua
  obtain ⟨n, v, o, ov, m, t, d, b⟩ := ua
  cases m <;> cases t <;> cases d <;> cases b <;> simp [getDeviceType]

/-- The witness of C7 (amended): the visit built for a crawler. -/
theorem bot_class_iff_only_bot_witness :
    (VisitTracker.newVisit sampleEnv sampleTracker sampleRequest "promo").map
      (fun p => (p.1.IsBot, p.1.DeviceType)) = some (true, "bot") := by
  cases h : VisitTracker.newVisit sampleEnv sampleTracker sampleRequest "promo" with
  | none => exact absurd h (by decide)
  | some p =>
    have hb := bot_class_iff_only_bot sampleEnv sampleTracker sampleRequest "promo" p.1 p.2 h
    have h1 : p.1.IsBot = true := hb.2.1
    have h2 : p.1.DeviceType = "bot" := hb.2.2.2 h1 rfl rfl rfl
    simp [h1, h2]

/-! ## Geolocation lookup (C8, C9) -/

/-- C9: `Lookup("")` returns ("", "") and has no effect at all, so it makes no
call on the HTTP client, whatever the credentials and the client are. -/
theorem Lookup_empty_ip (env : Env) (s : GeoIPService) :
    (s.Lookup env "").1 = ("", "") ∧ (s.Lookup env "").2 = [] ∧
    (s.Lookup env "").2.countP Effect.isHttp = 0 := by
  simp [GeoIPService.Lookup]

/-- C8: for a non-empty IP, `Lookup` (a total function into pairs of strings, so
no error is returned) makes at most one call on the HTTP client, and returns
("", "") when the request cannot be built (no call), when the call fails, when
the status is not 200, or when the body does not decode; otherwise it returns
the country ISO code and the city name under "en", which is "" when the names
have no "en" entry, just as the country is "" when the decoded country is the
zero value. -/
theorem Lookup_degrades (env : Env) (s : GeoIPService) (ip : String) (hip : ip ≠ "") :
    (s.Lookup env ip).2.countP Effect.isHttp ≤ 1 ∧
    (env.NewRequest "GET" ("https://geolite.info/geoip/v2.1/city/" ++ ip) = none →
      s.Lookup env ip = (("", ""), [])) ∧
    (∀ req0, env.NewRequest "GET" ("https://geolite.info/geoip/v2.1/city/" ++ ip) = some req0 →
      (s.Lookup env ip).2 =
        [Effect.httpDo { req0 with basicAuth := some (s.accountID, s.licenseKey) }] ∧
      (env.Do { req0 with basicAuth := some (s.accountID, s.licenseKey) } = none →
        (s.Lookup env ip).1 = ("", "")) ∧
      (∀ resp, env.Do { req0 with basicAuth := some (s.accountID, s.licenseKey) } = some resp →
        (resp.StatusCode ≠ 200 → (s.Lookup env ip).1 = ("", "")) ∧
        (resp.StatusCode = 200 → env.Decode resp.Body = none →
          (s.Lookup env ip).1 = ("", "")) ∧
        (∀ result, resp.StatusCode = 200 → env.Decode resp.Body = some result →
          (s.Lookup env ip).1 = (result.Country.IsoCode, mapIndex result.City.Names "en") ∧
          (result.City.Names.lookup "en" = none → (s.Lookup env ip).1.2 = "") ∧
          (result.Country.IsoCode = "" → (s.Lookup env ip).1.1 = "")))) := by
  unfold GeoIPService.Lookup
  simp only [hip, if_false]
  cases hreq : env.NewRequest "GET" ("https://geolite.info/geoip/v2.1/city/" ++ ip) with
  | none => simp
  | some req0 =>
    cases hdo : env.Do { req0 with basicAuth := some (s.accountID, s.licenseKey) } with
    | none => simp [hdo, Effect.isHttp]
    | some resp =>
      by_cases hst : resp.StatusCode = 200
      · cases hdec : env.Decode resp.Body with
        | none => simp [hdo, hst, hdec, Effect.isHttp]
        | some result =>
          have hmiss : result.City.Names.lookup "en" = none →
              mapIndex result.City.Names "en" = "" := by
            intro hno
            simp [mapIndex, hno]
          simp [hdo, hst, hdec, Effect.isHttp]
          intro hno
          exact hmiss (List.lookup_eq_none_iff.mpr (by simpa using hno))
      · simp [hdo, hst, Effect.isHttp]

/-- The witness of C8: the lookup of "1.2.3.4" against a service that answers
200 with Barcelona, ES. -/
theorem Lookup_degrades_witness :
    (sampleGeoIP.Lookup sampleEnv "1.2.3.4").1 = ("ES", "Barcelona") ∧
    (sampleGeoIP.Lookup sampleEnv "1.2.3.4").2.countP Effect.isHttp ≤ 1 :=
  ⟨((((Lookup_degrades sampleEnv sampleGeoIP "1.2.3.4" (by decide)).2.2
      { method := "GET", url := "https://geolite.info/geoip/v2.1/city/1.2.3.4",
        basicAuth := none } (by decide)).2.2
      { StatusCode := 200, Body := "body" } (by decide)).2.2
      { City := { Names := [("de", "Barcelona"), ("en", "Barcelona")] },
        Country := { IsoCode := "ES" } } (by decide) (by decide)).1.trans (by decide),
   (Lookup_degrades sampleEnv sampleGeoIP "1.2.3.4" (by decide)).1⟩

/-! ## Building the visit (C3) -/

theorem Lookup_effects_http (env : Env) (s : GeoIPService) (ip : String) :
    ∀ e ∈ (s.Lookup env ip).2, e.isHttp = true := by
  unfold GeoIPService.Lookup
  by_cases hip : ip = ""
  · simp [hip]
  · simp only [hip, if_false]
    cases hreq : env.NewRequest "GET" ("https://geolite.info/geoip/v2.1/city/" ++ ip) with
    | none => simp
    | some req0 =>
      cases hdo : env.Do { req0 with basicAuth := some (s.accountID, s.licenseKey) } with
      | none => simp [hdo, Effect.isHttp]
      | some resp =>
        by_cases hst : resp.StatusCode = 200
        · cases hdec : env.Decode resp.Body with
          | none => simp [hdo, hst, hdec, Effect.isHttp]
          | some result => simp [hdo, hst, hdec, Effect.isHttp]
        · simp [hdo, hst, Effect.isHttp]

theorem newVisit_effects_http (env : Env) (t : VisitTracker) (r : Request) (slug : String)
    (v : Visit) (fx : List Effect) (h : t.newVisit env r slug = some (v, fx)) :
    ∀ e ∈ fx, e.isHttp = true := by
  unfold VisitTracker.newVisit at h
  obtain ⟨ip, hip⟩ := getRealIP_total r
  simp only [hip, Option.some.injEq, Prod.mk.injEq] at h
  obtain ⟨_, h2⟩ := h
  subst h2
  cases hg : t.geoip with
  | none => simp
  | some g => exact Lookup_effects_http env g ip

theorem countP_isLog_of_http (l : Level) (fx : List Effect)
    (h : ∀ e ∈ fx, e.isHttp = true) : fx.countP (Effect.isLog l) = 0 := by
  rw [List.countP_eq_zero]
  intro e he
  have := h e he
  cases e <;> simp_all [Effect.isHttp, Effect.isLog]

theorem newVisit_total (env : Env) (t : VisitTracker) (r : Request) (slug : String) :
    ∃ v fx, t.newVisit env r slug = some (v, fx) := by
  obtain ⟨ip, hip⟩ := getRealIP_total r
  simp [VisitTracker.newVisit, hip]

theorem newVisit_slug (env : Env) (t : VisitTracker) (r : Request) (slug : String)
    (v : Visit) (fx : List Effect) (h : t.newVisit env r slug = some (v, fx)) :
    v.Slug = slug := by
  unfold VisitTracker.newVisit at h
  obtain ⟨ip, hip⟩ := getRealIP_total r
  simp only [hip, Option.some.injEq, Prod.mk.injEq] at h
  obtain ⟨h1, _⟩ := h
  subst h1
  rfl

theorem newVisit_congr (env : Env) (t t2 : VisitTracker) (r : Request) (slug : String)
    (h : t2.geoip = t.geoip) : t2.newVisit env r slug = t.newVisit env r slug := by
  simp [VisitTracker.newVisit, h]

/-- C3, as stated, fails: `Record` called for a crawler behind a proxy, with a
geolocation service configured, offers to the queue an event whose enrichment
fields are already filled, and `Record` itself has called the HTTP client. -/
theorem Record_enriches_before_enqueue :
    (VisitTracker.Record sampleEnv sampleTracker sampleRequest "promo").map
      (fun t => t.ch.map (fun v => (v.enrichmentEmpty, v.DeviceType, v.IsBot, v.Country)))
      = some [(false, "bot", true, "ES")] ∧
    (VisitTracker.Record sampleEnv sampleTracker sampleRequest "promo").map
      (fun t => t.trace.countP Effect.isHttp) = some 1 := by
  decide

/-- C3 (amended): the event `Record` builds carries the raw fields (time, slug,
IP, user agent, referer, query, language) and has its enrichment fields already
filled: device class, browser, versions, OS and bot flag come from the user
agent parsed inside `Record`, country and city from the geolocation lookup made
inside `Record` (both "" and no lookup when no service is configured); that
event is what `Record` sends when the buffer has room; the worker writes the
received event as it is and calls the HTTP client never. -/
theorem Record_builds_enriched_visit (env : Env) (t : VisitTracker) (r : Request)
    (slug : String) (v : Visit) (fx : List Effect)
    (h : t.newVisit env r slug = some (v, fx)) :
    (v.Time = env.Now ∧ v.Slug = slug ∧ getRealIP r = some v.IP ∧
      v.UserAgent = r.UserAgent ∧ v.Referer = r.Referer ∧ v.QueryParams = r.RawQuery ∧
      v.Language = r.Header.Get "Accept-Language") ∧
    (v.DeviceType = getDeviceType (env.Parse r.UserAgent) ∧
      v.Browser = (env.Parse r.UserAgent).Name ∧
      v.BrowserVer = (env.Parse r.UserAgent).Version ∧
      v.OS = (env.Parse r.UserAgent).OS ∧ v.OSVer = (env.Parse r.UserAgent).OSVersion ∧
      v.IsBot = (env.Parse r.UserAgent).Bot) ∧
    (t.geoip = none → v.Country = "" ∧ v.City = "" ∧ fx = []) ∧
    (∀ g, t.geoip = some g →
      (v.Country, v.City) = (g.Lookup env v.IP).1 ∧ fx = (g.Lookup env v.IP).2) ∧
    (t.chClosed = false → t.ch.length < chanCap →
      t.Record env r slug = some { t with ch := t.ch ++ [v], trace := t.trace ++ fx }) ∧
    (∀ (env2 : Env) (w : VisitTracker) (rest : List Visit),
      w.workerExited = false → w.ch = v :: rest →
      ∃ w2, w.workerStep env2 = some w2 ∧ w2.ch = rest ∧
        w2.trace.countP Effect.isHttp = w.trace.countP Effect.isHttp ∧
        (env2.EncodeErr w.encoded = none → w2.file = w.file ++ [env2.Marshal v]) ∧
        (env2.EncodeErr w.encoded ≠ none → w2.file = w.file)) := by
  have hrec : t.chClosed = false → t.ch.length < chanCap →
      t.Record env r slug = some { t with ch := t.ch ++ [v], trace := t.trace ++ fx } := by
    intro hc hl
    simp [VisitTracker.Record, h, hc, hl]
  unfold VisitTracker.newVisit at h
  obtain ⟨ip, hip⟩ := getRealIP_total r
  simp only [hip, Option.some.injEq, Prod.mk.injEq] at h
  obtain ⟨h1, h2⟩ := h
  subst h1
  subst h2
  refine ⟨⟨rfl, rfl, hip, rfl, rfl, rfl, rfl⟩, ⟨rfl, rfl, rfl, rfl, rfl, rfl⟩, ?_, ?_, hrec, ?_⟩
  · intro hg
    simp [hg]
  · intro g hg
    simp [hg]
  · intro env2 w rest hw hch
    cases he : env2.EncodeErr w.encoded with
    | none =>
      simp [VisitTracker.workerStep, hw, hch, VisitTracker.encodeOne, he, Effect.isHttp]
    | some err =>
      simp [VisitTracker.workerStep, hw, hch, VisitTracker.encodeOne, he, Effect.isHttp,
        writeError]

/-- The witness of C3 (amended): the visit built for the sample request. -/
theorem Record_builds_enriched_visit_witness :
    (VisitTracker.newVisit sampleEnv sampleTracker sampleRequest "promo").map
      (fun p => (p.1.Slug, p.1.DeviceType, p.1.IsBot)) = some ("promo", "bot", true) := by
  cases h : VisitTracker.newVisit sampleEnv sampleTracker sampleRequest "promo" with
  | none => exact absurd h (by decide)
  | some p =>
    have hb := Record_builds_enriched_visit sampleEnv sampleTracker sampleRequest "promo"
      p.1 p.2 h
    have h1 : p.1.Slug = "promo" := hb.1.2.1
    have h2 : p.1.DeviceType = "bot" := hb.2.1.1.trans (by decide)
    have h3 : p.1.IsBot = true := hb.2.1.2.2.2.2.2.trans (by decide)
    simp [h1, h2, h3]

/-! ## Backpressure (C1) -/

theorem Record_room (env : Env) (t : VisitTracker) (r : Request) (slug : String)
    (v : Visit) (fx : List Effect) (h : t.newVisit env r slug = some (v, fx))
    (hopen : t.chClosed = false) (hlen : t.ch.length < 100) :
    t.Record env r slug = some { t with ch := t.ch ++ [v], trace := t.trace ++ fx } := by
  simp [VisitTracker.Record, h, hopen, hlen, chanCap]

theorem Record_full (env : Env) (t : VisitTracker) (r : Request) (slug : String)
    (v : Visit) (fx : List Effect) (h : t.newVisit env r slug = some (v, fx))
    (hopen : t.chClosed = false) (hlen : ¬ t.ch.length < 100) :
    t.Record env r slug = some { t with trace := t.trace ++ fx ++ [dropWarning slug] } := by
  simp [VisitTracker.Record, h, hopen, hlen, chanCap]

theorem visitsOf_congr (t t2 : VisitTracker) (calls : List RecordCall)
    (h : t2.geoip = t.geoip) : t2.visitsOf calls = t.visitsOf calls := by
  unfold VisitTracker.visitsOf
  congr 1
  funext c
  rw [newVisit_congr c.env t t2 c.r c.slug h]

theorem visitsOf_cons (t : VisitTracker) (c : RecordCall) (cs : List RecordCall)
    (v : Visit) (fx : List Effect) (h : t.newVisit c.env c.r c.slug = some (v, fx)) :
    t.visitsOf (c :: cs) = v :: t.visitsOf cs := by
  simp [VisitTracker.visitsOf, List.filterMap_cons, h]

theorem visitsOf_length (t : VisitTracker) (calls : List RecordCall) :
    (t.visitsOf calls).length = calls.length := by
  induction calls with
  | nil => simp [VisitTracker.visitsOf]
  | cons c cs ih =>
    obtain ⟨v, fx, h⟩ := newVisit_total c.env t c.r c.slug
    rw [visitsOf_cons t c cs v fx h]
    simp [ih]

theorem recordAll_spec (calls : List RecordCall) :
    ∀ t : VisitTracker, t.chClosed = false → t.ch.length ≤ 100 →
      ∃ t2, t.recordAll calls = some t2 ∧
        t2.ch = t.ch ++ (t.visitsOf calls).take (100 - t.ch.length) ∧
        t2.trace.countP (Effect.isLog Level.warn) =
          t.trace.countP (Effect.isLog Level.warn) + (calls.length - (100 - t.ch.length)) ∧
        t2.ch.length ≤ 100 := by
  induction calls with
  | nil =>
    intro t _ hlen
    exact ⟨t, rfl, by simp [VisitTracker.visitsOf], by simp, hlen⟩
  | cons c cs ih =>
    intro t hopen hlen
    obtain ⟨v, fx, hv⟩ := newVisit_total c.env t c.r c.slug
    have hfx := countP_isLog_of_http Level.warn fx (newVisit_effects_http c.env t c.r c.slug v fx hv)
    rw [visitsOf_cons t c cs v fx hv]
    by_cases hl : t.ch.length < 100
    · have hstep := Record_room c.env t c.r c.slug v fx hv hopen hl
      obtain ⟨t2, h1, h2, h3, h4⟩ :=
        ih { t with ch := t.ch ++ [v], trace := t.trace ++ fx } hopen
          (by simp only [List.length_append, List.length_singleton]; omega)
      refine ⟨t2, ?_, ?_, ?_, h4⟩
      · simp only [VisitTracker.recordAll, hstep]
        exact h1
      · have hc : VisitTracker.visitsOf { t with ch := t.ch ++ [v], trace := t.trace ++ fx } cs
            = t.visitsOf cs := visitsOf_congr t _ cs rfl
        have hk : 100 - t.ch.length = (100 - (t.ch ++ [v]).length) + 1 := by
          simp only [List.length_append, List.length_singleton]; omega
        rw [h2, hc]
        show t.ch ++ [v] ++ List.take (100 - (t.ch ++ [v]).length) (t.visitsOf cs) = _
        rw [hk, List.take_succ_cons]
        simp
      · rw [h3]
        dsimp only
        simp only [List.countP_append, hfx, List.length_append, List.length_singleton,
          List.length_cons, List.length_nil]
        omega
    · have hstep := Record_full c.env t c.r c.slug v fx hv hopen hl
      obtain ⟨t2, h1, h2, h3, h4⟩ :=
        ih { t with trace := t.trace ++ fx ++ [dropWarning c.slug] } hopen hlen
      refine ⟨t2, ?_, ?_, ?_, h4⟩
      · simp only [VisitTracker.recordAll, hstep]
        exact h1
      · rw [h2]
        have hk : 100 - t.ch.length = 0 := by omega
        simp [hk]
      · rw [h3]
        have hw : [dropWarning c.slug].countP (Effect.isLog Level.warn) = 1 := by
          simp [dropWarning, Effect.isLog]
        dsimp only
        simp only [List.countP_append, hfx, hw, List.length_cons]
        omega

/-- C1: on an open tracker, a `Record` call builds its event `v` for the slug
without logging anything and never panics; with fewer than 100 events buffered
the queue becomes `q ++ [v]` and nothing else changes but the trace of the
lookup; with exactly 100 buffered the queue is unchanged and exactly one warning
naming the slug is appended to the trace. Hence `n` calls on an empty queue
with no dequeue leave the first `min n 100` events in call order, log
`n - min n 100` warnings, and after every prefix of the calls the queue holds
at most 100 events. -/
theorem Record_backpressure (t : VisitTracker) (hopen : t.chClosed = false) :
    (∀ (env : Env) (r : Request) (slug : String),
      ∃ v fx, t.newVisit env r slug = some (v, fx) ∧ v.Slug = slug ∧
        (∀ l, fx.countP (Effect.isLog l) = 0) ∧
        (t.ch.length < 100 →
          t.Record env r slug = some { t with ch := t.ch ++ [v], trace := t.trace ++ fx }) ∧
        (t.ch.length = 100 →
          t.Record env r slug =
            some { t with trace := t.trace ++ fx ++
              [Effect.log Level.warn "Visit queue full, dropping visit" ["slug", slug]] })) ∧
    (∀ calls : List RecordCall, t.ch = [] →
      ∃ t2, t.recordAll calls = some t2 ∧
        (t.visitsOf calls).length = calls.length ∧
        t2.ch = (t.visitsOf calls).take (min calls.length 100) ∧
        t2.ch.length = min calls.length 100 ∧
        t2.trace.countP (Effect.isLog Level.warn) =
          t.trace.countP (Effect.isLog Level.warn) + (calls.length - min calls.length 100) ∧
        (∀ k, ∃ tk, t.recordAll (calls.take k) = some tk ∧ tk.ch.length ≤ 100)) := by
  constructor
  · intro env r slug
    obtain ⟨v, fx, hv⟩ := newVisit_total env t r slug
    have hslug : v.Slug = slug := newVisit_slug env t r slug v fx hv
    refine ⟨v, fx, hv, hslug, ?_, ?_, ?_⟩
    · intro l
      exact countP_isLog_of_http l fx (newVisit_effects_http env t r slug v fx hv)
    · intro hl
      exact Record_room env t r slug v fx hv hopen hl
    · intro hl
      exact Record_full env t r slug v fx hv hopen (by omega)
  · intro calls hch
    obtain ⟨t2, h1, h2, h3, _⟩ := recordAll_spec calls t hopen (by simp [hch])
    have hlen := visitsOf_length t calls
    have htake : t2.ch = (t.visitsOf calls).take (min calls.length 100) := by
      rw [h2, hch]
      simp only [List.nil_append, List.length_nil, Nat.sub_zero]
      rcases Nat.le_total calls.length 100 with hle | hle
      · rw [Nat.min_eq_left hle, List.take_of_length_le (by omega),
          List.take_of_length_le (by omega)]
      · rw [Nat.min_eq_right hle]
    refine ⟨t2, h1, hlen, htake, ?_, ?_, ?_⟩
    · rw [htake, List.length_take, hlen]
      omega
    · rw [h3, hch]
      simp only [List.length_nil, Nat.sub_zero]
      omega
    · intro k
      obtain ⟨tk, hk1, _, _, hk4⟩ := recordAll_spec (calls.take k) t hopen (by simp [hch])
      exact ⟨tk, hk1, hk4⟩

/-- The witness of C1: a `Record` call on a full queue leaves the 100 events
in place and logs one warning. -/
theorem Record_backpressure_witness :
    (fullTracker.Record sampleEnv sampleRequest "promo").map
      (fun t => (t.ch.length, t.trace.countP (Effect.isLog Level.warn))) = some (100, 1) := by
  obtain ⟨v, fx, _, _, hfx, _, hfull⟩ :=
    (Record_backpressure fullTracker rfl).1 sampleEnv sampleRequest "promo"
  rw [hfull (by simp [fullTracker])]
  simp [fullTracker, sampleTracker, hfx, Effect.isLog]

/-! ## The worker and the drain on Close (C4, C2) -/

theorem workerRun_spec (env : Env) (geoip : Option GeoIPService) (chClosed fileClosed : Bool) :
    ∀ (ch : List Visit) (file : List String) (encoded : Nat) (trace : List Effect) (fuel : Nat),
      ch.length < fuel →
      VisitTracker.workerRun env fuel
          { geoip := geoip, ch := ch, chClosed := chClosed, file := file,
            fileClosed := fileClosed, workerExited := false, encoded := encoded,
            trace := trace } =
        { geoip := geoip, ch := [], chClosed := chClosed,
          file := file ++ (List.enumFrom encoded ch).filterMap (fun p => encodeLine env p.1 p.2),
          fileClosed := fileClosed, workerExited := chClosed,
          encoded := encoded + ch.length,
          trace := trace ++ (List.enumFrom encoded ch).map (fun p => encodeEffect env p.1 p.2) } := by
  intro ch
  induction ch with
  | nil =>
    intro file encoded trace fuel hf
    obtain ⟨f, rfl⟩ : ∃ f, fuel = f + 1 := ⟨fuel - 1, by simp at hf; omega⟩
    cases chClosed with
    | false => simp [VisitTracker.workerRun, VisitTracker.workerStep]
    | true =>
      cases f with
      | zero => simp [VisitTracker.workerRun, VisitTracker.workerStep]
      | succ f => simp [VisitTracker.workerRun, VisitTracker.workerStep]
  | cons v rest ih =>
    intro file encoded trace fuel hf
    obtain ⟨f, rfl⟩ : ∃ f, fuel = f + 1 := ⟨fuel - 1, by simp at hf; omega⟩
    have hf2 : rest.length < f := by simp at hf; omega
    cases he : env.EncodeErr encoded with
    | none =>
      simp only [VisitTracker.workerRun, VisitTracker.workerStep, VisitTracker.encodeOne, he,
        Bool.false_eq_true, if_false]
      rw [ih _ _ _ f hf2]
      simp [List.enumFrom_cons, encodeLine, encodeEffect, he, Nat.add_assoc, Nat.add_comm 1]
    | some err =>
      simp only [VisitTracker.workerRun, VisitTracker.workerStep, VisitTracker.encodeOne, he,
        Bool.false_eq_true, if_false]
      rw [ih _ _ _ f hf2]
      simp [List.enumFrom_cons, encodeLine, encodeEffect, he, Nat.add_assoc, Nat.add_comm 1]

theorem worker_spec (env : Env) (t : VisitTracker) (hw : t.workerExited = false) :
    t.worker env =
      { t with
        ch := []
        file := t.file ++ (List.enumFrom t.encoded t.ch).filterMap (fun p => encodeLine env p.1 p.2)
        workerExited := t.chClosed
        encoded := t.encoded + t.ch.length
        trace := t.trace ++ (List.enumFrom t.encoded t.ch).map (fun p => encodeEffect env p.1 p.2) } := by
  obtain ⟨geoip, ch, chClosed, file, fileClosed, workerExited, encoded, trace⟩ := t
  simp only at hw
  subst hw
  exact workerRun_spec env geoip chClosed fileClosed ch file encoded trace (ch.length + 1)
    (Nat.lt_succ_self _)

theorem encode_counts (env : Env) (l : List (Nat × Visit)) :
    (l.filterMap (fun p => encodeLine env p.1 p.2)).length +
      (l.map (fun p => encodeEffect env p.1 p.2)).countP (Effect.isLog Level.error) = l.length := by
  induction l with
  | nil => simp
  | cons p ps ih =>
    cases he : env.EncodeErr p.1 with
    | none =>
      have hl : encodeLine env p.1 p.2 = some (env.Marshal p.2) := by simp [encodeLine, he]
      have hE : encodeEffect env p.1 p.2 = Effect.write (env.Marshal p.2) := by
        simp [encodeEffect, he]
      have e1 : List.filterMap (fun q : Nat × Visit => encodeLine env q.1 q.2) (p :: ps) =
          env.Marshal p.2 :: List.filterMap (fun q : Nat × Visit => encodeLine env q.1 q.2) ps := by
        simp [List.filterMap_cons, hl]
      rw [e1, List.map_cons, List.countP_cons, hE]
      simp only [Effect.isLog, List.length_cons, Bool.false_eq_true, if_false]
      omega
    | some err =>
      have hl : encodeLine env p.1 p.2 = none := by simp [encodeLine, he]
      have hE : encodeEffect env p.1 p.2 = writeError err := by simp [encodeEffect, he]
      have e1 : List.filterMap (fun q : Nat × Visit => encodeLine env q.1 q.2) (p :: ps) =
          List.filterMap (fun q : Nat × Visit => encodeLine env q.1 q.2) ps := by
        simp [List.filterMap_cons, hl]
      rw [e1, List.map_cons, List.countP_cons, hE]
      simp only [Effect.isLog, writeError, List.length_cons, decide_True, if_true]
      omega

theorem enumFrom_getElem? (n : Nat) (l : List Visit) (i : Nat) (v : Visit)
    (h : l[i]? = some v) : (n + i, v) ∈ List.enumFrom n l := by
  induction l generalizing n i with
  | nil => simp at h
  | cons x xs ih =>
    cases i with
    | zero =>
      simp at h
      subst h
      simp [List.enumFrom_cons]
    | succ j =>
      simp at h
      have := ih (n + 1) j h
      rw [List.enumFrom_cons]
      apply List.mem_cons_of_mem
      have e : n + (j + 1) = n + 1 + j := by omega
      rw [e]
      exact this

theorem encode_no_error (env : Env) (h : ∀ n, env.EncodeErr n = none) (l : List Visit) :
    ∀ n, (List.enumFrom n l).filterMap (fun p => encodeLine env p.1 p.2) = l.map env.Marshal ∧
      (List.enumFrom n l).map (fun p => encodeEffect env p.1 p.2) =
        l.map (fun v => Effect.write (env.Marshal v)) := by
  induction l with
  | nil => intro n; simp
  | cons x xs ih =>
    intro n
    obtain ⟨h1, h2⟩ := ih (n + 1)
    simp only [encodeLine, encodeEffect, h] at h1 h2 ⊢
    simp [List.enumFrom_cons, h1, h2]

/-- C4: the worker, run for as long as it can move, calls `Encode` exactly once
for each queued event, in queue order: the trace grows by exactly one effect per
event, in order, the line written when that call succeeds and one error log
when it fails, whatever happened to the events before; the file grows by the
lines of the calls that succeeded, in order; the lines appended plus the errors
logged equal the number of events taken; every event whose call succeeded has
its line among the appended ones and every failure its error in the trace; the
queue is empty afterwards and the worker has returned exactly when the channel
is closed, so no further move is possible. -/
theorem worker_survives_failures (env : Env) (t : VisitTracker)
    (hw : t.workerExited = false) :
    (t.worker env).ch = [] ∧
    (t.worker env).encoded = t.encoded + t.ch.length ∧
    (t.worker env).trace =
      t.trace ++ (List.enumFrom t.encoded t.ch).map (fun p => encodeEffect env p.1 p.2) ∧
    (t.worker env).file =
      t.file ++ (List.enumFrom t.encoded t.ch).filterMap (fun p => encodeLine env p.1 p.2) ∧
    ((t.worker env).file.length - t.file.length) +
      ((t.worker env).trace.countP (Effect.isLog Level.error) -
        t.trace.countP (Effect.isLog Level.error)) = t.ch.length ∧
    (∀ i v, t.ch[i]? = some v → env.EncodeErr (t.encoded + i) = none →
      env.Marshal v ∈ (t.worker env).file.drop t.file.length) ∧
    (∀ i v err, t.ch[i]? = some v → env.EncodeErr (t.encoded + i) = some err →
      Effect.log Level.error "Failed to write visit" ["error", err] ∈
        (t.worker env).trace.drop t.trace.length) ∧
    (t.worker env).workerExited = t.chClosed ∧
    (t.worker env).workerStep env = none := by
  rw [worker_spec env t hw]
  refine ⟨rfl, rfl, rfl, rfl, ?_, ?_, ?_, rfl, ?_⟩
  · have hc := encode_counts env (List.enumFrom t.encoded t.ch)
    simp only [List.length_append, List.countP_append, List.enumFrom_length] at hc ⊢
    omega
  · intro i v hv he
    simp only [List.drop_left]
    rw [List.mem_filterMap]
    exact ⟨(t.encoded + i, v), enumFrom_getElem? t.encoded t.ch i v hv, by simp [encodeLine, he]⟩
  · intro i v err hv he
    simp only [List.drop_left]
    rw [List.mem_map]
    exact ⟨(t.encoded + i, v), enumFrom_getElem? t.encoded t.ch i v hv,
      by simp [encodeEffect, he, writeError]⟩
  · cases hc : t.chClosed <;> simp [VisitTracker.workerStep, hc]

/-- The witness of C4: two queued events, the second `Encode` fails. -/
theorem worker_survives_failures_witness :
    (busyTracker.worker sampleEnv).file = ["earlier line", "old 198.51.100.9"] ∧
    (busyTracker.worker sampleEnv).trace =
      [Effect.write "old 198.51.100.9",
       Effect.log Level.error "Failed to write visit" ["error", "disk full"]] :=
  ⟨(worker_survives_failures sampleEnv busyTracker rfl).2.2.2.1.trans (by decide),
   (worker_survives_failures sampleEnv busyTracker rfl).2.2.1.trans (by decide)⟩

/-- C2: `Close` on an open tracker whose worker is running does not panic and
returns exactly the error (or nil) of closing the file; afterwards the queue is
empty, the worker has returned, the file is closed, and closing the file is the
last effect. When no `Encode` fails, the file is its previous content followed
by one line per queued event, in queue order, and the trace grows by exactly
those writes followed by the close of the file. -/
theorem Close_drains_in_order (env : Env) (t : VisitTracker)
    (hopen : t.chClosed = false) (hw : t.workerExited = false) :
    ∃ t2, t.Close env = some (t2, env.CloseErr) ∧
      t2.ch = [] ∧ t2.chClosed = true ∧ t2.workerExited = true ∧ t2.fileClosed = true ∧
      t2.trace.getLast? = some Effect.fileClose ∧
      t2.workerStep env = none ∧
      ((∀ n, env.EncodeErr n = none) →
        t2.file = t.file ++ t.ch.map env.Marshal ∧
        t2.trace = t.trace ++ t.ch.map (fun v => Effect.write (env.Marshal v)) ++
          [Effect.fileClose]) := by
  have hs := worker_spec env { t with chClosed := true } hw
  have hclose : t.Close env =
      some ({ VisitTracker.worker env { t with chClosed := true } with
                fileClosed := true
                trace := (VisitTracker.worker env { t with chClosed := true }).trace ++
                  [Effect.fileClose] }, env.CloseErr) := by
    simp [VisitTracker.Close, hopen]
  rw [hs] at hclose
  refine ⟨_, hclose, ?_, ?_, ?_, ?_, ?_, ?_, ?_⟩
  · simp
  · simp
  · simp
  · simp
  · simp
  · simp [VisitTracker.workerStep]
  · intro hno
    obtain ⟨h1, h2⟩ := encode_no_error env hno t.ch t.encoded
    simp [h1, h2]

/-- The witness of C2: `Close` with two events queued and a file whose close
fails. -/
theorem Close_drains_in_order_witness :
    ∃ t2, busyTracker.Close quietEnv = some (t2, some "close failed") ∧
      t2.file = ["earlier line", "old 198.51.100.9", "new 198.51.100.9"] ∧
      t2.trace.getLast? = some Effect.fileClose := by
  obtain ⟨t2, h1, _, _, _, _, h6, _, h8⟩ := Close_drains_in_order quietEnv busyTracker rfl rfl
  exact ⟨t2, h1, (h8 (fun _ => rfl)).1.trans (by decide), h6⟩

/-! ## Reachable states

The hypotheses of the theorems above (an open channel, a running worker) hold in
every state the program reaches before `Close`, and the buffer never holds more
than 100 events. -/

theorem Reachable_invariant (t : VisitTracker) (h : Reachable t) :
    t.ch.length ≤ 100 ∧ (t.chClosed = false → t.workerExited = false) ∧
    (t.fileClosed = true → t.workerExited = true ∧ t.ch = []) := by
  induction h with
  | init opened geoip t hnew =>
    cases opened with
    | error e => simp [NewVisitTracker] at hnew
    | ok lines =>
      simp only [NewVisitTracker, Except.ok.injEq] at hnew
      subst hnew
      simp
  | record env r slug t t2 _ hrec ih =>
    obtain ⟨ih1, ih2, ih3⟩ := ih
    obtain ⟨v, fx, hv⟩ := newVisit_total env t r slug
    have hopen : t.chClosed = false := by
      cases hc : t.chClosed with
      | false => rfl
      | true => simp [VisitTracker.Record, hv, hc] at hrec
    have hfile : t.fileClosed = false := by
      cases hf : t.fileClosed with
      | false => rfl
      | true =>
        have := ih2 hopen
        have := (ih3 hf).1
        simp_all
    by_cases hl : t.ch.length < 100
    · rw [Record_room env t r slug v fx hv hopen hl, Option.some.injEq] at hrec
      subst hrec
      refine ⟨?_, ih2, ?_⟩
      · simp only [List.length_append, List.length_singleton]
        omega
      · intro hf
        simp [hfile] at hf
    · rw [Record_full env t r slug v fx hv hopen hl, Option.some.injEq] at hrec
      subst hrec
      exact ⟨ih1, ih2, ih3⟩
  | step env t t2 _ hstep ih =>
    obtain ⟨ih1, ih2, ih3⟩ := ih
    have hw : t.workerExited = false := by
      cases hc : t.workerExited with
      | false => rfl
      | true => simp [VisitTracker.workerStep, hc] at hstep
    have hfile : t.fileClosed = false := by
      cases hf : t.fileClosed with
      | false => rfl
      | true =>
        have := (ih3 hf).1
        simp_all
    cases hch : t.ch with
    | nil =>
      cases hc : t.chClosed with
      | false => simp [VisitTracker.workerStep, hw, hch, hc] at hstep
      | true =>
        simp only [VisitTracker.workerStep, hw, hch, hc, Bool.false_eq_true, if_false, if_true,
          Option.some.injEq] at hstep
        subst hstep
        simp [hch, hc]
    | cons v rest =>
      have hlen : rest.length ≤ 100 := by
        rw [hch] at ih1
        simp only [List.length_cons] at ih1
        omega
      cases he : env.EncodeErr t.encoded with
      | none =>
        simp only [VisitTracker.workerStep, hw, hch, VisitTracker.encodeOne, he,
          Bool.false_eq_true, if_false, Option.some.injEq] at hstep
        subst hstep
        exact ⟨hlen, fun _ => rfl, fun hf => by simp [hfile] at hf⟩
      | some err =>
        simp only [VisitTracker.workerStep, hw, hch, VisitTracker.encodeOne, he,
          Bool.false_eq_true, if_false, Option.some.injEq] at hstep
        subst hstep
        exact ⟨hlen, fun _ => rfl, fun hf => by simp [hfile] at hf⟩
  | close env t t2 err _ hclose ih =>
    obtain ⟨_, ih2, _⟩ := ih
    have hopen : t.chClosed = false := by
      cases hc : t.chClosed with
      | false => rfl
      | true => simp [VisitTracker.Close, hc] at hclose
    have hs := worker_spec env { t with chClosed := true } (ih2 hopen)
    simp only [VisitTracker.Close, hopen, Bool.false_eq_true, if_false, Option.some.injEq,
      Prod.mk.injEq] at hclose
    obtain ⟨hclose, _⟩ := hclose
    rw [hs] at hclose
    subst hclose
    simp

/-! ## The root handler (C10) -/

theorem Record_total (env : Env) (t : VisitTracker) (r : Request) (slug : String)
    (hopen : t.chClosed = false) : ∃ t2, t.Record env r slug = some t2 := by
  obtain ⟨v, fx, hv⟩ := newVisit_total env t r slug
  by_cases hl : t.ch.length < 100
  · exact ⟨_, Record_room env t r slug v fx hv hopen hl⟩
  · exact ⟨_, Record_full env t r slug v fx hv hopen hl⟩

/-- C10: the root handler answers with a redirect to `u` only if the method is
GET, the store maps the slug (the path without its first character, so without
the leading '/') to `u` and `u` starts with "http://" or "https://"; the
redirect then has status 302 and `Record` has been called for the slug, and on
an open tracker it is always issued. A slug mapped to a URL with another prefix
gets 400, with the tracker left as it was but for the one warning, so without
a call of `Record`; non-GET gets 405, an unmapped empty slug 200 and any other
unmapped slug 404, each without a call of `Record`. -/
theorem rootHandler_redirects_http_only (env : Env) (store : URLStore) (t : VisitTracker)
    (r : Request) :
    (∀ u code t2, rootHandler env store t r = some (Reply.redirect u code, t2) →
      code = 302 ∧ r.Method = "GET" ∧
      ∃ slug, pathSlug r.Path = some slug ∧ store.Get slug = some u ∧
        (HasPrefix u "http://" = true ∨ HasPrefix u "https://" = true) ∧
        VisitTracker.Record env (afterRedirectLog t slug u) r slug = some t2) ∧
    (r.Method ≠ "GET" →
      rootHandler env store t r = some (Reply.error "Method not allowed" 405, t)) ∧
    (∀ cs, r.Path = ⟨'/' :: cs⟩ → pathSlug r.Path = some ⟨cs⟩) ∧
    (∀ slug, r.Method = "GET" → pathSlug r.Path = some slug →
      (∀ u, store.Get slug = some u → HasPrefix u "http://" = false →
        HasPrefix u "https://" = false →
        rootHandler env store t r = some (Reply.error "Invalid redirect URL" 400,
          { t with trace := t.trace ++
              [Effect.log Level.warn "Blocked unsafe redirect scheme"
                ["slug", slug, "url", u]] })) ∧
      (∀ u, store.Get slug = some u →
        (HasPrefix u "http://" = true ∨ HasPrefix u "https://" = true) →
        rootHandler env store t r =
          (VisitTracker.Record env (afterRedirectLog t slug u) r slug).map
            (fun t2 => (Reply.redirect u 302, t2)) ∧
        (t.chClosed = false → ∃ t2, rootHandler env store t r = some (Reply.redirect u 302, t2))) ∧
      (store.Get slug = none → slug = "" →
        rootHandler env store t r =
          some (Reply.page 200 "<!DOCTYPE html><html><head></head><body></body></html>", t)) ∧
      (store.Get slug = none → slug ≠ "" →
        rootHandler env store t r = some (Reply.notFound,
          { t with trace := t.trace ++ [Effect.log Level.debug "Slug not found" ["slug", slug]] }) ∧
        Reply.notFound.status = 404)) := by
  have hredir : ∀ slug u, r.Method = "GET" → pathSlug r.Path = some slug →
      store.Get slug = some u →
      (HasPrefix u "http://" = true ∨ HasPrefix u "https://" = true) →
      rootHandler env store t r =
        (VisitTracker.Record env (afterRedirectLog t slug u) r slug).map
          (fun t2 => (Reply.redirect u 302, t2)) := by
    intro slug u hm hp hs hpre
    have hcond : (!HasPrefix u "http://" && !HasPrefix u "https://") = false := by
      rcases hpre with h | h <;> simp [h]
    simp only [rootHandler, hm, ne_eq, not_true_eq_false, if_false, hp, hs, hcond,
      Bool.false_eq_true, afterRedirectLog]
    cases VisitTracker.Record env _ r slug <;> rfl
  refine ⟨?_, ?_, ?_, ?_⟩
  · intro u code t2 h
    by_cases hm : r.Method = "GET"
    · cases hp : pathSlug r.Path with
      | none => simp [rootHandler, hm, hp] at h
      | some slug =>
        cases hs : store.Get slug with
        | none =>
          by_cases he : slug = ""
          · subst he
            simp [rootHandler, hm, hp, hs] at h
          · simp [rootHandler, hm, hp, hs, he] at h
        | some url =>
          by_cases hpre : (HasPrefix url "http://" = true ∨ HasPrefix url "https://" = true)
          · rw [hredir slug url hm hp hs hpre] at h
            cases hrec : VisitTracker.Record env (afterRedirectLog t slug url) r slug with
            | none => simp [hrec] at h
            | some t3 =>
              simp only [hrec, Option.map_some', Option.some.injEq, Prod.mk.injEq,
                Reply.redirect.injEq] at h
              obtain ⟨⟨hu, hc⟩, ht⟩ := h
              subst hu
              subst hc
              subst ht
              exact ⟨rfl, hm, slug, rfl, hs, hpre, hrec⟩
          · have h1 : HasPrefix url "http://" = false := by
              cases hh : HasPrefix url "http://" <;> simp_all
            have h2 : HasPrefix url "https://" = false := by
              cases hh : HasPrefix url "https://" <;> simp_all
            simp [rootHandler, hm, hp, hs, h1, h2] at h
    · simp [rootHandler, hm] at h
  · intro hm
    simp [rootHandler, hm]
  · intro cs hcs
    simp [pathSlug, hcs]
  · intro slug hm hp
    refine ⟨?_, ?_, ?_, ?_⟩
    · intro u hs h1 h2
      simp [rootHandler, hm, hp, hs, h1, h2]
    · intro u hs hpre
      refine ⟨hredir slug u hm hp hs hpre, ?_⟩
      intro hopen
      obtain ⟨t2, ht2⟩ := Record_total env (afterRedirectLog t slug u) r slug hopen
      exact ⟨t2, by rw [hredir slug u hm hp hs hpre, ht2]; rfl⟩
    · intro hs he
      subst he
      simp [rootHandler, hm, hp, hs]
    · intro hs he
      simp [rootHandler, hm, hp, hs, he, Reply.status]

/-- The witness of C10: a slug mapped to a "javascript:" URL is answered with
400 and one warning, and no visit enters the queue. -/
theorem rootHandler_redirects_http_only_witness :
    rootHandler sampleEnv sampleStore sampleTracker
        { sampleRequest with Path := "/evil" } =
      some (Reply.error "Invalid redirect URL" 400,
        { sampleTracker with trace :=
            [Effect.log Level.warn "Blocked unsafe redirect scheme"
              ["slug", "evil", "url", "javascript:alert(1)"]] }) :=
  ((rootHandler_redirects_http_only sampleEnv sampleStore sampleTracker
      { sampleRequest with Path := "/evil" }).2.2.2 "evil" (by decide) (by decide)).1
    "javascript:alert(1)" (by decide) (by decide) (by decide)

end Linklet
